import Mathlib

/-!
Shallow embedding of the `openbook_posts` Django models
(`src/openbook_posts/models.py`) of the openbook-api repository.

Rows of the relevant tables are Lean structures; the database is a record
of lists of rows.  Django/Python conventions are made explicit:
  * a Python value that may be `None` is an `Option`;
  * Python truthiness of a string/file argument (`not text`) is
    `truthy : Option String → Bool` (both `None` and the empty string are
    falsy);
  * `timezone.now()` is passed in as an explicit `now : Nat` argument, and
    the primary key the database would assign on INSERT as `freshId : Nat`;
  * raising `ValidationError` is returning `Except.error`; the functions
    that touch the database also return the database state as it is when
    the call finishes or raises.
-/

/-- Python truthiness of an optional string (file / text argument):
`None` and `""` are falsy, everything else truthy. -/
def truthy : Option String → Bool
  | none => false
  | some s => !s.isEmpty

/-- A row of the `Post` table.  `id` is `none` before the first INSERT.
`created` is `none` until assigned (the column is `editable=False`). -/
structure Post where
  id : Option Nat
  creator : Nat
  text : Option String
  created : Option Nat
  public_comments : Bool := true
  public_reactions : Bool := true
  deriving Repr, DecidableEq

/-- A row of the `PostImage` table (`post` is a OneToOneField with
`on_delete=CASCADE`). -/
structure PostImage where
  post_id : Nat
  image : String
  deriving Repr, DecidableEq

/-- A row of the `PostVideo` table (`post` is a OneToOneField with
`on_delete=CASCADE`). -/
structure PostVideo where
  post_id : Nat
  video : String
  deriving Repr, DecidableEq

/-- A row of the `PostComment` table (`post` is a ForeignKey with
`on_delete=CASCADE`). -/
structure PostComment where
  id : Option Nat
  post_id : Nat
  commenter : Nat
  text : String
  created : Option Nat
  deriving Repr, DecidableEq

/-- A row of the `PostReaction` table (`post` and `emoji` are ForeignKeys
with `on_delete=CASCADE`; `Meta.unique_together = ('reactor', 'post')`). -/
structure PostReaction where
  id : Option Nat
  post_id : Nat
  reactor : Nat
  emoji_id : Nat
  created : Option Nat
  deriving Repr, DecidableEq

/-- The persistent state: one list of rows per table, plus the
`post.circles` many-to-many association table and the `Emoji` table
(only its primary keys matter here). -/
structure DB where
  posts : List Post
  images : List PostImage
  videos : List PostVideo
  comments : List PostComment
  reactions : List PostReaction
  postCircles : List (Nat × Nat)
  emojis : List Nat
  deriving Repr, DecidableEq

/-- `Post.save` (models.py:151-156): on save, if the row has no pk yet and
no `created` value, stamp `created = timezone.now()`; then the superclass
save INSERTs (assigning the pk) or UPDATEs. -/
def Post.save (p : Post) (now freshId : Nat) : Post :=
  let p := if p.id = none ∧ p.created = none then { p with created := some now } else p
  if p.id = none then { p with id := some freshId } else p

/-- `PostComment.save` (models.py:201-205): if the row has no pk yet,
stamp `created = timezone.now()`; then INSERT or UPDATE. -/
def PostComment.save (c : PostComment) (now freshId : Nat) : PostComment :=
  let c := if c.id = none then { c with created := some now } else c
  if c.id = none then { c with id := some freshId } else c

/-- `PostReaction.save` (models.py:230-234): if the row has no pk yet,
stamp `created = timezone.now()`; then INSERT or UPDATE. -/
def PostReaction.save (r : PostReaction) (now freshId : Nat) : PostReaction :=
  let r := if r.id = none then { r with created := some now } else r
  if r.id = none then { r with id := some freshId } else r

/-- The two `ValidationError`s `Post.create_post` can raise. -/
inductive ValidationErr where
  | missingContent
  | imageAndVideo
  deriving Repr, DecidableEq

/-- `Post.create_post` (models.py:49-72).  Mirrors the source line by line:
two validation checks, then `Post.objects.create` (an INSERT via `save`),
the optional in-memory `post.text = text`, the optional `PostImage` /
`PostVideo` INSERTs, `post.circles.add(*circles_ids)`, and a final
`post.save()` (an UPDATE).  On a raise the database is returned as it was,
because both raises precede every write. -/
def Post.create_post (db : DB) (creator : Nat) (circles_ids : List Nat)
    (image : Option String := none) (text : Option String := none)
    (video : Option String := none) (created : Option Nat := none)
    (now freshId : Nat := 0) : DB × Except ValidationErr Post :=
  if ¬ truthy text ∧ ¬ truthy image ∧ ¬ truthy video then
    (db, .error .missingContent)
  else if truthy image ∧ truthy video then
    (db, .error .imageAndVideo)
  else
    let post := Post.save ⟨none, creator, none, created, true, true⟩ now freshId
    let db := { db with posts := db.posts ++ [post] }
    let post := if truthy text then { post with text := text } else post
    let db := if truthy image then
      { db with images := db.images ++ [⟨freshId, image.getD ""⟩] } else db
    let db := if truthy video then
      { db with videos := db.videos ++ [⟨freshId, video.getD ""⟩] } else db
    let db := { db with postCircles := db.postCircles ++ circles_ids.map (fun c => (freshId, c)) }
    let post := Post.save post now freshId
    let db := { db with posts := db.posts.map (fun q => if q.id = post.id then post else q) }
    (db, .ok post)

/-- `PostReaction.create_reaction` (models.py:217-219): `objects.create`
INSERTs the row via `save`.  The `unique_together = ('reactor', 'post')`
constraint (models.py:214-215) makes the INSERT fail with a database
integrity error when a row for the same (reactor, post) pair already
exists, so the failing case returns `none` and leaves the table as is. -/
def PostReaction.create_reaction (db : DB) (reactor emoji_id post_id : Nat)
    (now freshId : Nat) : DB × Option PostReaction :=
  if db.reactions.any (fun r => r.reactor == reactor && r.post_id == post_id) then
    (db, none)
  else
    let r := PostReaction.save ⟨none, post_id, reactor, emoji_id, none⟩ now freshId
    ({ db with reactions := db.reactions ++ [r] }, some r)

/-- `Post.react` (models.py:138-139): delegates to
`PostReaction.create_reaction` with `post=self`. -/
def Post.react (db : DB) (p : Post) (reactor emoji_id : Nat)
    (now freshId : Nat) : DB × Option PostReaction :=
  PostReaction.create_reaction db reactor emoji_id (p.id.getD 0) now freshId

/-- `Post.remove_reaction_with_id` (models.py:141-142):
`self.reactions.filter(id=reaction_id).delete()` — deletes the reactions
of this post whose pk equals `reaction_id`. -/
def Post.remove_reaction_with_id (db : DB) (post_pk reaction_id : Nat) : DB :=
  { db with reactions :=
      db.reactions.filter (fun r => !(r.post_id == post_pk && r.id == some reaction_id)) }

/-- `Post.remove_comment_with_id` (models.py:135-136):
`self.comments.filter(id=post_comment_id).delete()`. -/
def Post.remove_comment_with_id (db : DB) (post_pk post_comment_id : Nat) : DB :=
  { db with comments :=
      db.comments.filter (fun c => !(c.post_id == post_pk && c.id == some post_comment_id)) }

/-- `Post.is_public_post` (models.py:144-149): true iff
`self.circles.filter(id=world_circle_id).count() == 1`, i.e. the
association table holds exactly one (this post, world circle) row.
`world_circle_id` (`Circle.get_world_circle_id`, a model outside this
repository slice) is passed in as a parameter. -/
def Post.is_public_post (db : DB) (world_circle_id : Nat) (p : Post) : Bool :=
  db.postCircles.countP (fun pc => some pc.1 == p.id && pc.2 == world_circle_id) == 1

/-- `Post.get_emoji_counts_for_post_with_id` (models.py:74-102): the
distinct emojis having at least one reaction on the post (also filtered
by `emoji_id` when that argument is given), each paired with the number
of reactions on the post with that emoji (also filtered by `reactor_id`
when given), sorted by count in descending order (`list.sort` with
`reverse=True` is a stable descending sort). -/
def Post.get_emoji_counts_for_post_with_id (db : DB) (post_id : Nat)
    (emoji_id : Option Nat := none) (reactor_id : Option Nat := none) :
    List (Nat × Nat) :=
  let emojis_reacted_with := db.emojis.filter (fun e =>
    db.reactions.any (fun r => r.post_id == post_id && r.emoji_id == e &&
      (match emoji_id with | none => true | some eid => r.emoji_id == eid)))
  let emoji_counts := emojis_reacted_with.map (fun e =>
    (e, db.reactions.countP (fun r => r.post_id == post_id && r.emoji_id == e &&
      (match reactor_id with | none => true | some rid => r.reactor == rid))))
  emoji_counts.mergeSort (fun a b => decide (b.2 ≤ a.2))

/-- Deleting a `Post` row: Django honours the `on_delete=models.CASCADE`
declared on `PostComment.post` (models.py:183), `PostReaction.post`
(models.py:209), `PostImage.post` (models.py:163) and `PostVideo.post`
(models.py:169), deleting every dependent row, and clears the
many-to-many `circles` association rows of the post. -/
def Post.delete (db : DB) (post_pk : Nat) : DB :=
  { db with
    posts := db.posts.filter (fun p => !(p.id == some post_pk))
    images := db.images.filter (fun i => !(i.post_id == post_pk))
    videos := db.videos.filter (fun v => !(v.post_id == post_pk))
    comments := db.comments.filter (fun c => !(c.post_id == post_pk))
    reactions := db.reactions.filter (fun r => !(r.post_id == post_pk))
    postCircles := db.postCircles.filter (fun pc => !(pc.1 == post_pk)) }

/-- Modelled from the spec: the posts endpoint (its view and the
`openbook_circles` models are not under `src/`).  "World circle — the
implicit circle representing fully public visibility"; "the created text
post should automatically added to world circle": when the request names
no circles the post is created in the world circle, and a successful
creation returns HTTP 201 (a validation error becomes a 4xx response). -/
def postsEndpointCreate (db : DB) (world_circle_id creator : Nat)
    (circles_ids : List Nat) (image text video : Option String)
    (now freshId : Nat) : DB × Except ValidationErr Post × Nat :=
  let cids := if circles_ids.isEmpty then [world_circle_id] else circles_ids
  match Post.create_post db creator cids image text video none now freshId with
  | (db2, .ok post) => (db2, .ok post, 201)
  | (db2, .error e) => (db2, .error e, 400)

/-- Modelled from the spec: feed retrieval with `max_id` and `count`
query parameters (the posts view is not under `src/`): "feed pagination
respects `max_id`/`count`" — the feed keeps only posts with pk strictly
below `max_id`, newest (highest pk) first, and returns at most `count`
posts. -/
def feedWithMaxIdAndCount (posts : List Post) (max_id count : Nat) : List Post :=
  ((posts.filter (fun p => p.id.getD 0 < max_id)).mergeSort
      (fun a b => decide (b.id.getD 0 ≤ a.id.getD 0))).take count

/-- Modelled from the spec: the unauthenticated feed for a `username`
(the posts view is not under `src/`): "unauthenticated users see only
public posts" — the result is the named user's posts that satisfy
`Post.is_public_post` (models.py:144-149). -/
def publicPostsForUser (db : DB) (world_circle_id user_id : Nat) : List Post :=
  db.posts.filter (fun p => p.creator == user_id && Post.is_public_post db world_circle_id p)

/-- Modelled from the spec: the membership tables of the circles and
lists apps (`openbook_circles` / `openbook_lists` are not under `src/`):
a (user, circle) pair records that the user is connected in that circle,
a (user, list) pair that the user is followed in that list. -/
structure Memberships where
  circleMembers : List (Nat × Nat)
  listMembers : List (Nat × Nat)
  deriving Repr, DecidableEq

/-- Modelled from the spec: the authenticated feed with a `circle_id`
filter (the posts view is not under `src/`): "circle/list filters
restrict visible posts to members of that group" — exactly the posts
created by users who are members of one of the named circles. -/
def feedForCircles (db : DB) (m : Memberships) (circle_ids : List Nat) : List Post :=
  db.posts.filter (fun p => circle_ids.any (fun c => m.circleMembers.contains (p.creator, c)))

/-- Modelled from the spec: the authenticated feed with a `list_id`
filter, symmetric to `feedForCircles`. -/
def feedForLists (db : DB) (m : Memberships) (list_ids : List Nat) : List Post :=
  db.posts.filter (fun p => list_ids.any (fun l => m.listMembers.contains (p.creator, l)))

/-- The invariant `unique_together = ('reactor', 'post')` enforces: no
two reaction rows share the same (reactor, post) pair. -/
def reactionsUnique (db : DB) : Prop :=
  db.reactions.Pairwise (fun a b => ¬ (a.reactor = b.reactor ∧ a.post_id = b.post_id))

/-- A persisted post has content: text, or an image row, or a video row. -/
def hasContent (db : DB) (p : Post) : Prop :=
  truthy p.text ∨ (∃ i ∈ db.images, some i.post_id = p.id) ∨
    (∃ v ∈ db.videos, some v.post_id = p.id)

/-- A persisted post does not have both an image row and a video row. -/
def notImageAndVideo (db : DB) (p : Post) : Prop :=
  ¬ ((∃ i ∈ db.images, some i.post_id = p.id) ∧ (∃ v ∈ db.videos, some v.post_id = p.id))

/-- Every persisted post has content and not both an image and a video. -/
def postInv (db : DB) : Prop :=
  ∀ p ∈ db.posts, hasContent db p ∧ notImageAndVideo db p

/-- `freshId` is a primary key not yet used by any post / image / video
row (what the database guarantees for the key assigned on INSERT). -/
def freshPostId (db : DB) (freshId : Nat) : Prop :=
  (∀ p ∈ db.posts, p.id ≠ some freshId) ∧
  (∀ i ∈ db.images, i.post_id ≠ freshId) ∧
  (∀ v ∈ db.videos, v.post_id ≠ freshId)

/-- The empty database. -/
def dbEmpty : DB := ⟨[], [], [], [], [], [], []⟩

/-- A small concrete database used to instantiate witnesses: two posts
(pks 1 and 2), an image and a video on post 1, comments on both posts,
a reaction on post 1, both posts in circle 1. -/
def dbSample : DB :=
  ⟨[⟨some 1, 1, some "t", some 0, true, true⟩, ⟨some 2, 1, some "u", some 0, true, true⟩],
   [⟨1, "i.jpg"⟩], [⟨1, "v.mp4"⟩],
   [⟨some 1, 1, 2, "c", some 0⟩, ⟨some 2, 2, 2, "d", some 0⟩],
   [⟨some 1, 1, 2, 4, some 0⟩],
   [(1, 1), (2, 1)], [4]⟩

/-- C7: for every Post, PostComment and PostReaction, `save` stamps the
`created` field exactly on the first save (when the row has no pk yet),
and every save of an already persisted row (pk assigned) leaves `created`
unchanged; for Post a `created` value already present is never
overwritten. -/
theorem saves_set_created_once (p : Post) (c : PostComment) (r : PostReaction)
    (now freshId : Nat) :
    ((p.id = none ∧ p.created = none → (p.save now freshId).created = some now) ∧
     (∀ t, p.created = some t → (p.save now freshId).created = some t) ∧
     (∀ k, p.id = some k → (p.save now freshId).created = p.created)) ∧
    ((c.id = none → (c.save now freshId).created = some now) ∧
     (∀ k, c.id = some k → (c.save now freshId).created = c.created)) ∧
    ((r.id = none → (r.save now freshId).created = some now) ∧
     (∀ k, r.id = some k → (r.save now freshId).created = r.created)) := by
  refine ⟨⟨?_, ?_, ?_⟩, ⟨?_, ?_⟩, ⟨?_, ?_⟩⟩
  · rintro ⟨h1, h2⟩
    simp [Post.save, h1, h2]
  · intro t ht
    cases hid : p.id <;> simp [Post.save, hid, ht]
  · intro k hk
    simp [Post.save, hk]
  · intro h
    simp [PostComment.save, h]
  · intro k hk
    simp [PostComment.save, hk]
  · intro h
    simp [PostReaction.save, h]
  · intro k hk
    simp [PostReaction.save, hk]

/-- Witness for C7 at concrete rows. -/
theorem saves_set_created_once_witness :
    (Post.save ⟨none, 1, none, none, true, true⟩ 5 3).created = some 5 ∧
    (PostComment.save ⟨some 2, 1, 1, "c", some 7⟩ 5 3).created = some 7 ∧
    (PostReaction.save ⟨none, 1, 1, 4, none⟩ 5 3).created = some 5 :=
  ⟨(saves_set_created_once ⟨none, 1, none, none, true, true⟩ ⟨some 2, 1, 1, "c", some 7⟩
      ⟨none, 1, 1, 4, none⟩ 5 3).1.1 ⟨rfl, rfl⟩,
   (saves_set_created_once ⟨none, 1, none, none, true, true⟩ ⟨some 2, 1, 1, "c", some 7⟩
      ⟨none, 1, 1, 4, none⟩ 5 3).2.1.2 2 rfl,
   (saves_set_created_once ⟨none, 1, none, none, true, true⟩ ⟨some 2, 1, 1, "c", some 7⟩
      ⟨none, 1, 1, 4, none⟩ 5 3).2.2.1 rfl⟩

/-- C8: deleting a post cascades: afterwards no comment, reaction, image
or video row referencing the deleted post remains, and the post row
itself is gone. -/
theorem delete_post_cascades (db : DB) (post_pk : Nat) :
    (∀ c ∈ (Post.delete db post_pk).comments, c.post_id ≠ post_pk) ∧
    (∀ r ∈ (Post.delete db post_pk).reactions, r.post_id ≠ post_pk) ∧
    (∀ i ∈ (Post.delete db post_pk).images, i.post_id ≠ post_pk) ∧
    (∀ v ∈ (Post.delete db post_pk).videos, v.post_id ≠ post_pk) ∧
    (∀ p ∈ (Post.delete db post_pk).posts, p.id ≠ some post_pk) := by
  refine ⟨?_, ?_, ?_, ?_, ?_⟩ <;>
    · intro x hx
      simp [Post.delete, List.mem_filter] at hx
      exact hx.2

/-- Witness for C8 on `dbSample`: the comment on post 2 survives the
deletion of post 1 and indeed does not reference post 1. -/
theorem delete_post_cascades_witness :
    (⟨some 2, 2, 2, "d", some 0⟩ : PostComment).post_id ≠ 1 :=
  (delete_post_cascades dbSample 1).1 ⟨some 2, 2, 2, "d", some 0⟩ (by decide)

/-- C9: when `Post.create_post` raises (no content, or image and video
together), the database is returned unchanged — both validation checks
precede every write — and the result is an error. -/
theorem create_post_error_leaves_db_unchanged (db : DB) (creator : Nat)
    (circles_ids : List Nat) (image text video : Option String)
    (created : Option Nat) (now freshId : Nat)
    (h : (¬ truthy text ∧ ¬ truthy image ∧ ¬ truthy video) ∨
         (truthy image = true ∧ truthy video = true)) :
    (Post.create_post db creator circles_ids image text video created now freshId).1 = db ∧
    ∃ e, (Post.create_post db creator circles_ids image text video created now freshId).2 =
      .error e := by
  rcases h with ⟨h1, h2, h3⟩ | ⟨h1, h2⟩
  · simp [Post.create_post, h1, h2, h3]
  · simp [Post.create_post, h1, h2]

/-- Witness for C9: calling with no content on `dbSample` leaves it
unchanged. -/
theorem create_post_error_leaves_db_unchanged_witness :
    (Post.create_post dbSample 1 [1] none none none none 9 9).1 = dbSample ∧
    ∃ e, (Post.create_post dbSample 1 [1] none none none none 9 9).2 = .error e :=
  create_post_error_leaves_db_unchanged dbSample 1 [1] none none none none 9 9
    (Or.inl (by decide))

/-- C2: the `unique_together ('reactor', 'post')` invariant — at most one
reaction row per (reactor, post) pair — is preserved by
`PostReaction.create_reaction`, by `Post.react` and by
`Post.remove_reaction_with_id`; moreover a second reaction by the same
user on the same post leaves the reaction table unchanged (the INSERT is
refused by the constraint). -/
theorem reaction_uniqueness_preserved (db : DB) (p : Post)
    (reactor emoji_id post_pk reaction_id now freshId : Nat)
    (hu : reactionsUnique db) :
    reactionsUnique (PostReaction.create_reaction db reactor emoji_id post_pk now freshId).1 ∧
    reactionsUnique (Post.react db p reactor emoji_id now freshId).1 ∧
    reactionsUnique (Post.remove_reaction_with_id db post_pk reaction_id) ∧
    ((∃ r0 ∈ db.reactions, r0.reactor = reactor ∧ r0.post_id = post_pk) →
      (PostReaction.create_reaction db reactor emoji_id post_pk now freshId).1 = db) := by
  have key : ∀ rr pp : Nat,
      reactionsUnique (PostReaction.create_reaction db rr emoji_id pp now freshId).1 := by
    intro rr pp
    unfold PostReaction.create_reaction
    split
    · exact hu
    · rename_i h
      simp only [List.any_eq_true, Bool.and_eq_true, beq_iff_eq, not_exists, not_and] at h
      unfold reactionsUnique at hu ⊢
      simp only
      rw [List.pairwise_append]
      refine ⟨hu, List.pairwise_singleton _ _, ?_⟩
      intro a ha b hb
      simp only [List.mem_singleton] at hb
      subst hb
      have hfields : (PostReaction.save ⟨none, pp, rr, emoji_id, none⟩ now freshId).reactor = rr ∧
          (PostReaction.save ⟨none, pp, rr, emoji_id, none⟩ now freshId).post_id = pp := by
        simp [PostReaction.save]
      rintro ⟨hre, hpo⟩
      rw [hfields.1] at hre
      rw [hfields.2] at hpo
      exact h a ha hre hpo
  refine ⟨key reactor post_pk, key reactor (p.id.getD 0), ?_, ?_⟩
  · unfold reactionsUnique at hu ⊢
    unfold Post.remove_reaction_with_id
    exact hu.filter _
  · rintro ⟨r0, hr0, hre, hpo2⟩
    unfold PostReaction.create_reaction
    have : db.reactions.any (fun r => r.reactor == reactor && r.post_id == post_pk) = true := by
      simp only [List.any_eq_true, Bool.and_eq_true, beq_iff_eq]
      exact ⟨r0, hr0, hre, hpo2⟩
    simp [this]

/-- Witness for C2 on `dbSample` (one existing reaction by user 2 on
post 1): the table already holding that pair, a second react by user 2 on
post 1 leaves the database unchanged, and uniqueness holds afterwards. -/
theorem reaction_uniqueness_preserved_witness :
    reactionsUnique (PostReaction.create_reaction dbSample 2 4 1 9 9).1 ∧
    (PostReaction.create_reaction dbSample 2 4 1 9 9).1 = dbSample :=
  ⟨(reaction_uniqueness_preserved dbSample ⟨some 1, 1, some "t", some 0, true, true⟩
      2 4 1 1 9 9 (by unfold reactionsUnique dbSample; simp)).1,
   (reaction_uniqueness_preserved dbSample ⟨some 1, 1, some "t", some 0, true, true⟩
      2 4 1 1 9 9 (by unfold reactionsUnique dbSample; simp)).2.2.2
     ⟨⟨some 1, 1, 2, 4, some 0⟩, by unfold dbSample; simp⟩⟩

/-- Mapping a function that fixes every element of a list is the
identity on that list. -/
theorem map_fixes {α : Type} (l : List α) (f : α → α) (h : ∀ x ∈ l, f x = x) :
    l.map f = l := by
  calc l.map f = l.map id := List.map_congr_left h
  _ = l := List.map_id l

/-- The final UPDATE of `create_post` rewrites only the freshly inserted
row: every pre-existing row keeps its pk distinct from the fresh one. -/
theorem update_append_fresh (l : List Post) (pOld pNew : Post) (freshId : Nat)
    (hl : ∀ x ∈ l, x.id ≠ some freshId) (hOld : pOld.id = some freshId)
    (hNew : pNew.id = some freshId) :
    (l ++ [pOld]).map (fun q => if q.id = pNew.id then pNew else q) = l ++ [pNew] := by
  rw [List.map_append]
  congr 1
  · apply map_fixes
    intro x hx
    have hne : x.id ≠ pNew.id := by rw [hNew]; exact hl x hx
    simp [hne]
  · simp [hOld, hNew]

/-- Fields of the row produced by the INSERT inside
`Post.objects.create(creator=creator, created=created)`. -/
theorem save_new_post_fields (creator : Nat) (created : Option Nat) (now freshId : Nat) :
    (Post.save ⟨none, creator, none, created, true, true⟩ now freshId).id = some freshId ∧
    (Post.save ⟨none, creator, none, created, true, true⟩ now freshId).creator = creator ∧
    (Post.save ⟨none, creator, none, created, true, true⟩ now freshId).text = none := by
  unfold Post.save
  by_cases h : created = none <;> simp [h]

/-- Saving an already persisted post row changes nothing. -/
theorem save_of_saved (p : Post) (now freshId k : Nat) (h : p.id = some k) :
    p.save now freshId = p := by
  unfold Post.save
  simp [h]

/-- Normal form of a successful `Post.create_post`: one new post row
with the fresh pk, an image (resp. video) row exactly when an image
(resp. video) was supplied, one circle association per requested circle,
and everything else untouched. -/
theorem create_post_ok_form (db : DB) (creator : Nat) (circles_ids : List Nat)
    (image text video : Option String) (created : Option Nat) (now freshId : Nat)
    (hfresh1 : ∀ x ∈ db.posts, x.id ≠ some freshId)
    (hc : truthy text = true ∨ truthy image = true ∨ truthy video = true)
    (hiv : ¬(truthy image = true ∧ truthy video = true)) :
    ∃ post : Post,
      Post.create_post db creator circles_ids image text video created now freshId =
        (⟨db.posts ++ [post],
          db.images ++ (if truthy image then [⟨freshId, image.getD ""⟩] else []),
          db.videos ++ (if truthy video then [⟨freshId, video.getD ""⟩] else []),
          db.comments, db.reactions,
          db.postCircles ++ circles_ids.map (fun c => (freshId, c)),
          db.emojis⟩, .ok post) ∧
      post.id = some freshId ∧ post.creator = creator ∧
      post.text = (if truthy text then text else none) := by
  set p1 := Post.save ⟨none, creator, none, created, true, true⟩ now freshId with hp1
  have hid : p1.id = some freshId := (save_new_post_fields creator created now freshId).1
  have hcr : p1.creator = creator := (save_new_post_fields creator created now freshId).2.1
  have htx : p1.text = none := (save_new_post_fields creator created now freshId).2.2
  set p2 := if truthy text = true then { p1 with text := text } else p1 with hp2
  have hid2 : p2.id = some freshId := by
    rw [hp2]; split <;> simpa using hid
  have hcr2 : p2.creator = creator := by
    rw [hp2]; split <;> simpa using hcr
  have htx2 : p2.text = (if truthy text then text else none) := by
    rw [hp2]
    split
    · rename_i h; simp [h]
    · rename_i h; simp [h, htx]
  have hsave2 : Post.save p2 now freshId = p2 := save_of_saved p2 now freshId freshId hid2
  have hupd : (db.posts ++ [p1]).map (fun q => if q.id = p2.id then p2 else q) =
      db.posts ++ [p2] :=
    update_append_fresh db.posts p1 p2 freshId hfresh1 hid hid2
  have hval1 : ¬(¬ truthy text = true ∧ ¬ truthy image = true ∧ ¬ truthy video = true) := by
    tauto
  refine ⟨p2, ?_, hid2, hcr2, htx2⟩
  unfold Post.create_post
  rw [if_neg hval1, if_neg hiv]
  simp only [← hp1, ← hp2, hsave2]
  by_cases hi : truthy image = true <;> by_cases hv : truthy video = true
  · exact absurd ⟨hi, hv⟩ hiv
  · simp only [hi, hv, if_true, Bool.false_eq_true, if_false]
    rw [hupd]
    simp
  · simp only [hi, hv, if_true, Bool.false_eq_true, if_false]
    rw [hupd]
    simp
  · simp only [hi, hv, Bool.false_eq_true, if_false]
    rw [hupd]
    simp

/-- C1: `Post.create_post` raises a validation error iff the call
supplies neither text nor image nor video, or supplies both an image and
a video; in every other case a Post row is created and returned, and the
content invariant — every persisted post has text or an image or a
video, and never both an image and a video — holds in the resulting
database. -/
theorem create_post_validation (db : DB) (creator : Nat) (circles_ids : List Nat)
    (image text video : Option String) (created : Option Nat) (now freshId : Nat)
    (hfresh : freshPostId db freshId) (hinv : postInv db) :
    ((∃ e, (Post.create_post db creator circles_ids image text video created now freshId).2 =
        .error e) ↔
      ((¬ truthy text = true ∧ ¬ truthy image = true ∧ ¬ truthy video = true) ∨
       (truthy image = true ∧ truthy video = true))) ∧
    (∀ db2 post,
      Post.create_post db creator circles_ids image text video created now freshId =
        (db2, .ok post) →
      post ∈ db2.posts ∧ post.creator = creator ∧ postInv db2) := by
  by_cases hcond : (¬ truthy text = true ∧ ¬ truthy image = true ∧ ¬ truthy video = true) ∨
      (truthy image = true ∧ truthy video = true)
  · refine ⟨⟨fun _ => hcond, fun _ => ?_⟩, fun db2 post hpost => ?_⟩
    · rcases hcond with ⟨h1, h2, h3⟩ | ⟨h1, h2⟩
      · exact ⟨.missingContent, by simp [Post.create_post, h1, h2, h3]⟩
      · exact ⟨.imageAndVideo, by simp [Post.create_post, h1, h2]⟩
    · exfalso
      rcases hcond with ⟨h1, h2, h3⟩ | ⟨h1, h2⟩
      · simp [Post.create_post, h1, h2, h3, Prod.ext_iff] at hpost
      · simp [Post.create_post, h1, h2, Prod.ext_iff] at hpost
  · have hc : truthy text = true ∨ truthy image = true ∨ truthy video = true := by
      tauto
    have hiv : ¬(truthy image = true ∧ truthy video = true) := fun h => hcond (Or.inr h)
    obtain ⟨post, heq, hid, hcr, htx⟩ :=
      create_post_ok_form db creator circles_ids image text video created now freshId
        hfresh.1 hc hiv
    have himgNew : ∀ i ∈ (if truthy image = true then
        [(⟨freshId, image.getD ""⟩ : PostImage)] else []),
        i.post_id = freshId ∧ truthy image = true := by
      split
      · rename_i h
        intro i hi
        simp only [List.mem_singleton] at hi
        subst hi
        exact ⟨rfl, h⟩
      · simp
    have hvidNew : ∀ v ∈ (if truthy video = true then
        [(⟨freshId, video.getD ""⟩ : PostVideo)] else []),
        v.post_id = freshId ∧ truthy video = true := by
      split
      · rename_i h
        intro v hv
        simp only [List.mem_singleton] at hv
        subst hv
        exact ⟨rfl, h⟩
      · simp
    refine ⟨⟨fun he => ?_, fun h => absurd h hcond⟩, fun db2 post2 hpost => ?_⟩
    · obtain ⟨e, he⟩ := he
      rw [heq] at he
      simp at he
    · rw [heq] at hpost
      rw [Prod.ext_iff] at hpost
      obtain ⟨hdb2, hok⟩ := hpost
      simp only [Except.ok.injEq] at hok
      subst hok
      subst hdb2
      refine ⟨by simp, hcr, ?_⟩
      intro q hq
      simp only [List.mem_append, List.mem_singleton] at hq
      rcases hq with hq | hq
      · -- a pre-existing post keeps its content and never gains both
        obtain ⟨hcon, hnb⟩ := hinv q hq
        constructor
        · rcases hcon with ht | ⟨i, hiI, hiEq⟩ | ⟨v, hvV, hvEq⟩
          · exact Or.inl ht
          · exact Or.inr (Or.inl ⟨i, by simp [hiI], hiEq⟩)
          · exact Or.inr (Or.inr ⟨v, by simp [hvV], hvEq⟩)
        · rintro ⟨⟨i, hiI, hiEq⟩, ⟨v, hvV, hvEq⟩⟩
          simp only [List.mem_append] at hiI hvV
          have hiOld : i ∈ db.images := by
            rcases hiI with h | h
            · exact h
            · exfalso
              have := (himgNew i h).1
              rw [this] at hiEq
              exact hfresh.1 q hq hiEq.symm
          have hvOld : v ∈ db.videos := by
            rcases hvV with h | h
            · exact h
            · exfalso
              have := (hvidNew v h).1
              rw [this] at hvEq
              exact hfresh.1 q hq hvEq.symm
          exact hnb ⟨⟨i, hiOld, hiEq⟩, ⟨v, hvOld, hvEq⟩⟩
      · -- the freshly created post has content and never both
        subst hq
        constructor
        · rcases hc with ht | hi | hv
          · refine Or.inl ?_
            rw [htx, if_pos ht]
            exact ht
          · refine Or.inr (Or.inl ⟨⟨freshId, image.getD ""⟩, ?_, by rw [hid]⟩)
            simp [hi]
          · refine Or.inr (Or.inr ⟨⟨freshId, video.getD ""⟩, ?_, by rw [hid]⟩)
            simp [hv]
        · rintro ⟨⟨i, hiI, hiEq⟩, ⟨v, hvV, hvEq⟩⟩
          simp only [List.mem_append] at hiI hvV
          rw [hid] at hiEq hvEq
          simp only [Option.some_inj] at hiEq hvEq
          have hti : truthy image = true := by
            rcases hiI with h | h
            · exact absurd hiEq (hfresh.2.1 i h)
            · exact (himgNew i h).2
          have htv : truthy video = true := by
            rcases hvV with h | h
            · exact absurd hvEq (hfresh.2.2 v h)
            · exact (hvidNew v h).2
          exact hiv ⟨hti, htv⟩

/-- Witness for C1: creating a text post on `dbEmpty` with fresh pk 1
succeeds, the row is persisted with its creator, and the content
invariant holds afterwards. -/
theorem create_post_validation_witness :
    freshPostId dbEmpty 1 ∧ postInv dbEmpty ∧
    ((⟨some 1, 7, some "hello", some 5, true, true⟩ : Post) ∈
        (Post.create_post dbEmpty 7 [3] none (some "hello") none none 5 1).1.posts ∧
      (⟨some 1, 7, some "hello", some 5, true, true⟩ : Post).creator = 7 ∧
      postInv (Post.create_post dbEmpty 7 [3] none (some "hello") none none 5 1).1) :=
  ⟨by constructor <;> simp [dbEmpty], by intro p hp; simp [dbEmpty] at hp,
   (create_post_validation dbEmpty 7 [3] none (some "hello") none none 5 1
      (by constructor <;> simp [dbEmpty]) (by intro p hp; simp [dbEmpty] at hp)).2
     (Post.create_post dbEmpty 7 [3] none (some "hello") none none 5 1).1
     ⟨some 1, 7, some "hello", some 5, true, true⟩ (by rfl)⟩

/-- C3: a successful creation through the posts endpoint with no circles
named returns 201, and the created post then belongs to the creator's
posts and carries a world-circle association (it is publicly visible). -/
theorem endpoint_create_adds_to_world_circle (db : DB) (world creator : Nat)
    (image text video : Option String) (now freshId : Nat)
    (hfresh : ∀ x ∈ db.posts, x.id ≠ some freshId)
    (hc : truthy text = true ∨ truthy image = true ∨ truthy video = true)
    (hiv : ¬(truthy image = true ∧ truthy video = true)) :
    ∃ post : Post,
      (postsEndpointCreate db world creator [] image text video now freshId).2.2 = 201 ∧
      (postsEndpointCreate db world creator [] image text video now freshId).2.1 = .ok post ∧
      post ∈ (postsEndpointCreate db world creator [] image text video now freshId).1.posts ∧
      post.creator = creator ∧ post.id = some freshId ∧
      (freshId, world) ∈
        (postsEndpointCreate db world creator [] image text video now freshId).1.postCircles := by
  obtain ⟨post, heq, hid, hcr, htx⟩ :=
    create_post_ok_form db creator [world] image text video none now freshId hfresh hc hiv
  refine ⟨post, ?_⟩
  unfold postsEndpointCreate
  simp only [List.isEmpty_nil, if_true]
  rw [heq]
  simp [hcr, hid]

/-- Witness for C3: a text post created on `dbEmpty` with world circle 1
gets status 201 and the (post, world) association. -/
theorem endpoint_create_adds_to_world_circle_witness :
    ∃ post : Post,
      (postsEndpointCreate dbEmpty 1 7 [] none (some "hi") none 5 2).2.2 = 201 ∧
      (postsEndpointCreate dbEmpty 1 7 [] none (some "hi") none 5 2).2.1 = .ok post ∧
      post ∈ (postsEndpointCreate dbEmpty 1 7 [] none (some "hi") none 5 2).1.posts ∧
      post.creator = 7 ∧ post.id = some 2 ∧
      (2, 1) ∈ (postsEndpointCreate dbEmpty 1 7 [] none (some "hi") none 5 2).1.postCircles :=
  endpoint_create_adds_to_world_circle dbEmpty 1 7 none (some "hi") none 5 2
    (by simp [dbEmpty]) (by decide) (by decide)

/-- C4: feed retrieval with `max_id` and `count`: every returned post has
a pk strictly below `max_id`, and at most `count` posts are returned. -/
theorem feed_max_id_count_spec (posts : List Post) (max_id count : Nat) :
    (∀ p ∈ feedWithMaxIdAndCount posts max_id count, p.id.getD 0 < max_id) ∧
    (feedWithMaxIdAndCount posts max_id count).length ≤ count := by
  constructor
  · intro p hp
    unfold feedWithMaxIdAndCount at hp
    have hp2 := List.take_subset _ _ hp
    rw [List.mem_mergeSort] at hp2
    have hp3 := List.mem_filter.mp hp2
    simpa using hp3.2
  · unfold feedWithMaxIdAndCount
    exact List.length_take_le _ _

/-- Witness for C4 on a three-post list with `max_id = 3`, `count = 1`. -/
theorem feed_max_id_count_spec_witness :
    (∀ p ∈ feedWithMaxIdAndCount
        [⟨some 1, 1, some "a", some 0, true, true⟩, ⟨some 2, 1, some "b", some 0, true, true⟩,
         ⟨some 3, 1, some "c", some 0, true, true⟩] 3 1, p.id.getD 0 < 3) ∧
    (feedWithMaxIdAndCount
        [⟨some 1, 1, some "a", some 0, true, true⟩, ⟨some 2, 1, some "b", some 0, true, true⟩,
         ⟨some 3, 1, some "c", some 0, true, true⟩] 3 1).length ≤ 1 :=
  feed_max_id_count_spec
    [⟨some 1, 1, some "a", some 0, true, true⟩, ⟨some 2, 1, some "b", some 0, true, true⟩,
     ⟨some 3, 1, some "c", some 0, true, true⟩] 3 1

/-- On a duplicate-free list, the count of matches of a single element
is 1 exactly when the element occurs. -/
theorem countP_beq_eq_one_iff_mem {α : Type} [BEq α] [LawfulBEq α] [DecidableEq α] (l : List α) (x : α)
    (hnd : l.Nodup) : l.countP (fun a => a == x) = 1 ↔ x ∈ l := by
  induction l with
  | nil => simp
  | cons a t ih =>
    rw [List.nodup_cons] at hnd
    rw [List.countP_cons]
    by_cases hax : a = x
    · subst hax
      have h0 : t.countP (fun b => b == a) = 0 := by
        rw [List.countP_eq_zero]
        intro b hb
        simp only [beq_iff_eq]
        intro hba
        exact hnd.1 (hba ▸ hb)
      simp [h0]
    · have hne : x ≠ a := fun h => hax h.symm
      simp [hax, ih hnd.2, hne]

/-- `Post.is_public_post` holds exactly when the post is persisted in the
world circle (association table without duplicate rows). -/
theorem is_public_post_iff (db : DB) (world : Nat) (p : Post)
    (hnd : db.postCircles.Nodup) :
    Post.is_public_post db world p = true ↔
      ∃ pid, p.id = some pid ∧ (pid, world) ∈ db.postCircles := by
  unfold Post.is_public_post
  rw [beq_iff_eq]
  cases hid : p.id with
  | none =>
    have h0 : db.postCircles.countP
        (fun pc => some pc.1 == (none : Option Nat) && pc.2 == world) = 0 := by
      rw [List.countP_eq_zero]
      intro a _
      simp
    rw [h0]
    simp
  | some pid =>
    have hc : db.postCircles.countP
        (fun pc => some pc.1 == some pid && pc.2 == world) =
        db.postCircles.countP (fun pc => pc == (pid, world)) := by
      apply List.countP_congr
      intro a _
      constructor
      · intro h
        simp only [Bool.and_eq_true, beq_iff_eq, Option.some_inj] at h
        simp [Prod.ext_iff, h.1, h.2]
      · intro h
        rw [beq_iff_eq] at h
        subst h
        simp
    rw [hc, countP_beq_eq_one_iff_mem db.postCircles (pid, world) hnd]
    constructor
    · intro h
      exact ⟨pid, rfl, h⟩
    · rintro ⟨pid2, hpid2, hmem⟩
      rw [Option.some_inj] at hpid2
      subst hpid2
      exact hmem

/-- C5: the unauthenticated feed for a user contains exactly that user's
public posts — a post is returned iff it belongs to the user and has a
world-circle association; a post only in other circles is never
returned. -/
theorem public_posts_unauthenticated_spec (db : DB) (world user_id : Nat)
    (hnd : db.postCircles.Nodup) :
    ∀ p, p ∈ publicPostsForUser db world user_id ↔
      (p ∈ db.posts ∧ p.creator = user_id ∧
        ∃ pid, p.id = some pid ∧ (pid, world) ∈ db.postCircles) := by
  intro p
  unfold publicPostsForUser
  rw [List.mem_filter, Bool.and_eq_true, beq_iff_eq, is_public_post_iff db world p hnd]

/-- Witness for C5 on `dbSample` (world circle 1): the public post 1 by
user 1 is returned. -/
theorem public_posts_unauthenticated_spec_witness :
    (⟨some 1, 1, some "t", some 0, true, true⟩ : Post) ∈ publicPostsForUser dbSample 1 1 :=
  (public_posts_unauthenticated_spec dbSample 1 1 (by decide)
      ⟨some 1, 1, some "t", some 0, true, true⟩).mpr
    ⟨by decide, rfl, 1, rfl, by decide⟩

/-- C6: the authenticated feed filtered by `circle_id` (resp. `list_id`)
returns exactly the posts whose creator is a member of one of the named
circles (resp. lists); no post by a user outside those groups appears. -/
theorem feed_circle_list_filters_spec (db : DB) (m : Memberships)
    (circle_ids list_ids : List Nat) :
    (∀ p, p ∈ feedForCircles db m circle_ids ↔
      (p ∈ db.posts ∧ ∃ c ∈ circle_ids, (p.creator, c) ∈ m.circleMembers)) ∧
    (∀ p, p ∈ feedForLists db m list_ids ↔
      (p ∈ db.posts ∧ ∃ l ∈ list_ids, (p.creator, l) ∈ m.listMembers)) := by
  constructor
  · intro p
    unfold feedForCircles
    rw [List.mem_filter, List.any_eq_true]
    simp
  · intro p
    unfold feedForLists
    rw [List.mem_filter, List.any_eq_true]
    simp

/-- Decoding the reaction filter used when collecting the emojis reacted
with: the optional `emoji_id` restriction holds iff the argument was
omitted or names this very emoji. -/
theorem emojiFilter_decode (emoji_id : Option Nat) (r : PostReaction) (e post_id : Nat) :
    ((r.post_id == post_id && r.emoji_id == e &&
      (match emoji_id with | none => true | some eid => r.emoji_id == eid)) = true) ↔
    (r.post_id = post_id ∧ r.emoji_id = e ∧ (emoji_id = none ∨ emoji_id = some e)) := by
  cases emoji_id with
  | none => simp
  | some eid =>
    simp only [Bool.and_eq_true, beq_iff_eq]
    constructor
    · rintro ⟨⟨h1, h2⟩, h3⟩
      refine ⟨h1, h2, Or.inr ?_⟩
      rw [h2] at h3
      rw [h3]
    · rintro ⟨h1, h2, h3 | h3⟩
      · exact absurd h3 (by simp)
      · injection h3 with h3
        exact ⟨⟨h1, h2⟩, by rw [h2, h3]⟩

/-- Decoding the per-emoji reaction count: the Bool filter of the source
counts the same rows as its propositional reading. -/
theorem reactorCount_decode (reactor_id : Option Nat) (db : DB) (post_id e : Nat) :
    db.reactions.countP (fun r => r.post_id == post_id && r.emoji_id == e &&
      (match reactor_id with | none => true | some rid => r.reactor == rid)) =
    db.reactions.countP (fun r => decide (r.post_id = post_id ∧ r.emoji_id = e ∧
      (reactor_id = none ∨ some r.reactor = reactor_id))) := by
  apply List.countP_congr
  intro r _
  cases reactor_id with
  | none => simp
  | some rid =>
    simp only [Bool.and_eq_true, beq_iff_eq, decide_eq_true_eq]
    constructor
    · rintro ⟨⟨h1, h2⟩, h3⟩
      exact ⟨h1, h2, Or.inr (by rw [h3])⟩
    · rintro ⟨h1, h2, h3 | h3⟩
      · exact absurd h3 (by simp)
      · injection h3 with h3
        exact ⟨⟨h1, h2⟩, h3⟩

/-- Sorting a map whose function keeps the key in the first component
preserves key distinctness. -/
theorem mergeSort_map_fst_nodup (l : List Nat) (g : Nat → Nat × Nat)
    (le : Nat × Nat → Nat × Nat → Bool) (hg : ∀ e, (g e).1 = e) (h : l.Nodup) :
    (((l.map g).mergeSort le).map Prod.fst).Nodup := by
  have hperm : (((l.map g).mergeSort le).map Prod.fst).Perm ((l.map g).map Prod.fst) :=
    (List.mergeSort_perm (l.map g) le).map Prod.fst
  rw [hperm.nodup_iff, List.map_map]
  have hfix : l.map (Prod.fst ∘ g) = l := map_fixes l _ (fun x _ => hg x)
  rw [hfix]
  exact h

/-- A list merge-sorted by descending second component is pairwise
non-increasing in that component. -/
theorem mergeSort_desc_pairwise {β : Type} (M : List (β × Nat)) :
    (M.mergeSort (fun a b => decide (b.2 ≤ a.2))).Pairwise (fun a b => b.2 ≤ a.2) := by
  have h := @List.sorted_mergeSort (β × Nat) (fun a b => decide (b.2 ≤ a.2))
    (fun a b c hab hbc => by
      simp only [decide_eq_true_eq] at hab hbc ⊢
      omega)
    (fun a b => by
      simp only [Bool.or_eq_true, decide_eq_true_eq]
      omega)
    M
  exact h.imp (fun hab => by simpa using hab)

/-- C10: `get_emoji_counts_for_post_with_id` returns one entry per
distinct emoji with at least one reaction on the post (restricted to the
given `emoji_id` when supplied); each entry counts exactly the reaction
rows for that post and emoji (restricted to the given `reactor_id` when
supplied); and the entries are sorted in non-increasing count order. -/
theorem get_emoji_counts_spec (db : DB) (post_id : Nat)
    (emoji_id reactor_id : Option Nat) (hnd : db.emojis.Nodup) :
    (∀ e c, (e, c) ∈ Post.get_emoji_counts_for_post_with_id db post_id emoji_id reactor_id ↔
      (e ∈ db.emojis ∧
       (∃ r ∈ db.reactions, r.post_id = post_id ∧ r.emoji_id = e ∧
         (emoji_id = none ∨ emoji_id = some e)) ∧
       c = db.reactions.countP (fun r => decide (r.post_id = post_id ∧ r.emoji_id = e ∧
         (reactor_id = none ∨ some r.reactor = reactor_id))))) ∧
    ((Post.get_emoji_counts_for_post_with_id db post_id emoji_id reactor_id).map
      Prod.fst).Nodup ∧
    (Post.get_emoji_counts_for_post_with_id db post_id emoji_id reactor_id).Pairwise
      (fun a b => b.2 ≤ a.2) := by
  have hR : Post.get_emoji_counts_for_post_with_id db post_id emoji_id reactor_id =
      ((db.emojis.filter (fun e =>
          db.reactions.any (fun r => r.post_id == post_id && r.emoji_id == e &&
            (match emoji_id with | none => true | some eid => r.emoji_id == eid)))).map
        (fun e => (e, db.reactions.countP (fun r =>
          r.post_id == post_id && r.emoji_id == e &&
            (match reactor_id with | none => true | some rid => r.reactor == rid))))).mergeSort
        (fun a b => decide (b.2 ≤ a.2)) := rfl
  rw [hR]
  refine ⟨?_, ?_, ?_⟩
  · intro e c
    rw [List.mem_mergeSort, List.mem_map]
    constructor
    · rintro ⟨e2, he2, heq⟩
      rw [Prod.mk.injEq] at heq
      obtain ⟨hee, hc⟩ := heq
      subst hee
      rw [List.mem_filter] at he2
      refine ⟨he2.1, ?_, ?_⟩
      · have hany := he2.2
        rw [List.any_eq_true] at hany
        obtain ⟨r, hr, hcond⟩ := hany
        exact ⟨r, hr, (emojiFilter_decode emoji_id r e2 post_id).mp hcond⟩
      · rw [← hc]
        exact reactorCount_decode reactor_id db post_id e2
    · rintro ⟨hmem, ⟨r, hr, hcond⟩, hc⟩
      refine ⟨e, ?_, ?_⟩
      · rw [List.mem_filter]
        refine ⟨hmem, ?_⟩
        rw [List.any_eq_true]
        exact ⟨r, hr, (emojiFilter_decode emoji_id r e post_id).mpr hcond⟩
      · rw [Prod.mk.injEq]
        exact ⟨rfl, by rw [reactorCount_decode, ← hc]⟩
  · exact mergeSort_map_fst_nodup _ _ _ (fun e => rfl) (hnd.filter _)
  · exact mergeSort_desc_pairwise _

/-- Witness for C10 on `dbSample` (one reaction with emoji 4 on post 1):
emoji 4 appears with count 1. -/
theorem get_emoji_counts_spec_witness :
    (4, 1) ∈ Post.get_emoji_counts_for_post_with_id dbSample 1 none none :=
  ((get_emoji_counts_spec dbSample 1 none none (by decide)).1 4 1).mpr
    ⟨by decide, ⟨⟨some 1, 1, 2, 4, some 0⟩, by decide, rfl, rfl, Or.inl rfl⟩, by decide⟩
